import Mathlib

/-!
Shallow embedding of `src/app.py`, the single source file of the
Interactive-Data-Analysis-Dashboard repository, together with proofs about
its cleaning, visualization and reporting logic.

The program is a Streamlit dashboard built on pandas.  Its data model is an
in-memory table (`pandas.DataFrame`) whose columns are homogeneous sequences
of values of an inferred type: numeric or text, each cell possibly missing
(`NaN`/`None`).  We embed such a table as `DataFrame` below: numeric cells
are `Option ℚ` (a missing cell is `none`), text cells are `Option String`.

Operations that can raise a Python exception (pandas `mode()[0]` on an empty
mode, `drop` of an absent column, `describe()` of a zero-column frame) are
embedded as `Option`-valued functions, `none` standing for a raised
exception; the caller code in `app.py` installs no handler around them, which
the embedding renders as `Option.bind` propagation.
-/

/-- The payload of one column: a homogeneous sequence of possibly-missing
numeric cells or possibly-missing text cells. -/
inductive ColData where
  | numeric (vals : List (Option ℚ))
  | text (vals : List (Option String))
deriving DecidableEq

/-- One named column of a table. -/
structure Column where
  name : String
  data : ColData
deriving DecidableEq

/-- An in-memory table: an ordered list of named columns. -/
structure DataFrame where
  cols : List Column
deriving DecidableEq

/-- Number of cells of a column. -/
def ColData.length : ColData → ℕ
  | .numeric vs => vs.length
  | .text vs => vs.length

/-- Row count of a table (`df.shape[0]`): the length of its first column,
`0` for a table with no columns. -/
def nRows (df : DataFrame) : ℕ :=
  match df.cols with
  | [] => 0
  | c :: _ => c.data.length

/-- Column count of a table (`df.shape[1]`). -/
def nCols (df : DataFrame) : ℕ := df.cols.length

/-- Column names of a table, in order (`df.columns.tolist()`). -/
def colNames (df : DataFrame) : List String := df.cols.map Column.name

/-- Per-cell missingness of a column (`df[col].isnull()`). -/
def cellsIsNull : ColData → List Bool
  | .numeric vs => vs.map Option.isNone
  | .text vs => vs.map Option.isNone

/-- Whether a column has at least one missing cell
(`df[col].isnull().any()`, line 77 of `app.py`). -/
def Column.hasNull (c : Column) : Bool := (cellsIsNull c.data).any id

/-- Whether a column holds no missing cell at all. -/
def Column.noNull (c : Column) : Bool := (cellsIsNull c.data).all (!·)

/-- Whether a column is of numeric dtype
(`pd.api.types.is_numeric_dtype`, line 78 of `app.py`). -/
def Column.isNumeric (c : Column) : Bool :=
  match c.data with
  | .numeric _ => true
  | .text _ => false

/-- Models `Series.mean()` on a numeric column: the arithmetic mean of the
non-missing cells, `none` (pandas `NaN`) when every cell is missing. -/
def meanOpt (vs : List (Option ℚ)) : Option ℚ :=
  let xs := vs.filterMap id
  if xs.length = 0 then none else some (xs.sum / (xs.length : ℚ))

/-- Smallest element of a list of strings, `none` for the empty list. -/
def listMinStr : List String → Option String
  | [] => none
  | x :: xs =>
    match listMinStr xs with
    | none => some x
    | some m => some (if x ≤ m then x else m)

/-- The highest multiplicity any element attains in the list. -/
def maxCount (xs : List String) : ℕ :=
  (xs.map fun v => xs.count v).foldr max 0

/-- Models `Series.mode()[0]` on a text column whose non-missing cells are
`xs`: pandas `mode()` lists the values of highest multiplicity in sorted
order, so indexing it at `0` picks the smallest such value; on an empty
`xs` the mode is empty and the indexing raises `KeyError` (`none` here). -/
def modeFirst (xs : List String) : Option String :=
  listMinStr (xs.dedup.filter fun v => xs.count v = maxCount xs)

/-- Models line 79/81 of `app.py`: fill the missing cells of a numeric
column with the column mean; `fillna` with the `NaN` mean of an all-missing
column replaces nothing. -/
def fillNum (vs : List (Option ℚ)) : List (Option ℚ) :=
  match meanOpt vs with
  | none => vs
  | some m => vs.map fun v => some (v.getD m)

/-- Models line 83/85 of `app.py`: fill the missing cells of a text column
with `mode()[0]`; `none` when the mode is empty and the indexing raises. -/
def fillText (vs : List (Option String)) : Option (List (Option String)) :=
  match modeFirst (vs.filterMap id) with
  | none => none
  | some m => some (vs.map fun v => some (v.getD m))

/-- Models the body of the per-column loop of lines 76–85 of `app.py`:
columns without missing cells are left untouched; numeric columns are
mean-filled; text columns are mode-filled (which can raise). -/
def fillColumn (c : Column) : Option Column :=
  if c.hasNull then
    match c.data with
    | .numeric vs => some { c with data := .numeric (fillNum vs) }
    | .text vs =>
      match fillText vs with
      | none => none
      | some vs' => some { c with data := .text vs' }
  else some c

/-- Option-valued map over a list, propagating a raised exception. -/
def mapOpt {α β : Type} (f : α → Option β) : List α → Option (List β)
  | [] => some []
  | a :: as =>
    match f a, mapOpt f as with
    | some b, some bs => some (b :: bs)
    | _, _ => none

/-- Models the whole `Fill with Mean/Median/Mode` branch of `app.py`
(lines 75–86): each column is filled independently, and an exception in any
column propagates out of the loop. -/
def fillMissing (df : DataFrame) : Option DataFrame :=
  match mapOpt fillColumn df.cols with
  | none => none
  | some cs => some ⟨cs⟩

/-- Keep the entries of `vs` whose mask bit is `false`. -/
def filterMask {α : Type} (mask : List Bool) (vs : List α) : List α :=
  (vs.zip mask).filterMap fun p => if p.2 then none else some p.1

/-- Restrict a column payload to the rows whose mask bit is `false`. -/
def ColData.filterRows (mask : List Bool) : ColData → ColData
  | .numeric vs => .numeric (filterMask mask vs)
  | .text vs => .text (filterMask mask vs)

/-- Per-row flag saying whether the row holds a missing cell in any column. -/
def rowMask (df : DataFrame) : List Bool :=
  df.cols.foldl (fun acc c => acc.zipWith or (cellsIsNull c.data))
    (List.replicate (nRows df) false)

/-- Models `df_processed.dropna(inplace=True)` (line 73 of `app.py`):
remove every row that has a missing cell in any column. -/
def dropna (df : DataFrame) : DataFrame :=
  ⟨df.cols.map fun c => { c with data := c.data.filterRows (rowMask df) }⟩

/-- Models `df_processed.drop(columns=columns_to_drop)` (line 96 of
`app.py`): remove every column whose name is listed; pandas raises
`KeyError` (here `none`) when a listed name is not a column of the frame. -/
def dropColumns (df : DataFrame) (drops : List String) : Option DataFrame :=
  if drops.all fun d => (colNames df).contains d then
    some ⟨df.cols.filter fun c => !(drops.contains c.name)⟩
  else none

/-- The three missing-value strategies of the radio widget (line 67–70). -/
inductive Strategy where
  | keep
  | dropRows
  | fillMM
deriving DecidableEq

/-- The mutable state of one render pass: the original frame `df` (line 56)
and the working copy `df_processed` created from it by `df.copy()`
(line 59).  The cleaning steps of `app.py` mutate only `df_processed`. -/
structure RenderState where
  df : DataFrame
  df_processed : DataFrame
deriving DecidableEq

/-- Models lines 72–86 of `app.py`: the selected missing-value strategy,
applied in place to `df_processed` only; a raised exception (no handler in
the source) aborts the render pass. -/
def cleanMissing (s : Strategy) (st : RenderState) : Option RenderState :=
  match s with
  | .keep => some st
  | .dropRows => some { st with df_processed := dropna st.df_processed }
  | .fillMM =>
    match fillMissing st.df_processed with
    | none => none
    | some d => some { st with df_processed := d }

/-- Models lines 94–98 of `app.py`: the column-drop step, skipped when the
multiselect is empty, reassigning `df_processed` otherwise. -/
def dropStep (drops : List String) (st : RenderState) : Option RenderState :=
  if drops.isEmpty then some st
  else
    match dropColumns st.df_processed drops with
    | none => none
    | some d => some { st with df_processed := d }

/-- The cleaning portion of one render pass (lines 58–98 of `app.py`):
copy the original, apply the missing-value strategy, then the column drop.
`none` models an uncaught exception aborting the pass. -/
def runCleaning (orig : DataFrame) (s : Strategy) (drops : List String) :
    Option RenderState :=
  match cleanMissing s { df := orig, df_processed := orig } with
  | none => none
  | some st => dropStep drops st

/-- The working copy as a function of (original, strategy, drop set): what
the cleaning pipeline leaves in `df_processed` when no exception is
raised. -/
def workingCopy (orig : DataFrame) (s : Strategy) (drops : List String) :
    Option DataFrame :=
  match (match s with
         | .keep => some orig
         | .dropRows => some (dropna orig)
         | .fillMM => fillMissing orig) with
  | none => none
  | some d => if drops.isEmpty then some d else dropColumns d drops

/-- Textual form of one text cell under `astype(str)`: Python renders a
missing object cell as the string `nan`. -/
def cellStr : Option String → String
  | none => "nan"
  | some s => s

/-- Models `to_display_df` (lines 104–113 of `app.py`): copy the frame and
cast every object-dtype column to its textual representation; numeric
columns are left as they are. -/
def to_display_df (df : DataFrame) : DataFrame :=
  ⟨df.cols.map fun c =>
    match c.data with
    | .numeric _ => c
    | .text vs => { c with data := .text (vs.map fun v => some (cellStr v)) }⟩

/-- First `n` cells of a column payload. -/
def ColData.takeRows (n : ℕ) : ColData → ColData
  | .numeric vs => .numeric (vs.take n)
  | .text vs => .text (vs.take n)

/-- Models `df.head()` (lines 117/120 of `app.py`): the first five rows. -/
def headDF (df : DataFrame) : DataFrame :=
  ⟨df.cols.map fun c => { c with data := c.data.takeRows 5 }⟩

/-- The first-5-rows preview the dashboard displays for a frame:
`to_display_df(df.head())`. -/
def previewDF (df : DataFrame) : DataFrame := to_display_df (headDF df)

/-- Names of the numeric columns, recomputed from the current frame
(`df_processed.select_dtypes(include=["number"])`, line 149 of `app.py`). -/
def numericColumns (df : DataFrame) : List String :=
  df.cols.filterMap fun c => if c.isNumeric then some c.name else none

/-- Names of the object/category columns (line 150 of `app.py`). -/
def categoricalColumns (df : DataFrame) : List String :=
  df.cols.filterMap fun c => if c.isNumeric then none else some c.name

/-- Mean of the numeric values paired with key `k`
(`df.groupby(cat)[num].mean()` at group `k`): missing keys never form a
group, and the mean skips missing values. -/
def groupMean (keys : List (Option String)) (vals : List (Option ℚ))
    (k : String) : Option ℚ :=
  meanOpt ((keys.zip vals).filterMap fun p =>
    if p.1 = some k then some p.2 else none)

/-- Ordering used by `sort_values(ascending=False)` on the aggregated
series: larger means first, missing means last. -/
def valDesc (a b : String × Option ℚ) : Bool :=
  match a.2, b.2 with
  | some x, some y => decide (y ≤ x)
  | some _, none => true
  | none, some _ => false
  | none, none => true

/-- The ordering of `valDesc` as a relation, used by the aggregation sort. -/
def valDescR (a b : String × Option ℚ) : Prop := valDesc a b = true

instance : DecidableRel valDescR :=
  fun a b => inferInstanceAs (Decidable (valDesc a b = true))

/-- Models the Bar Chart aggregation (line 192 of `app.py`):
`df.groupby(cat)[num].mean().sort_values(ascending=False)` — one entry per
distinct non-missing key (groupby sorts keys ascending), carrying the group
mean, then sorted by mean in descending order. -/
def barChartAgg (keys : List (Option String)) (vals : List (Option ℚ)) :
    List (String × Option ℚ) :=
  let ks := List.insertionSort (fun a b : String => a ≤ b)
    (keys.filterMap id).dedup
  List.insertionSort valDescR (ks.map fun k => (k, groupMean keys vals k))

/-- What one plot branch leaves on the page: a warning box or a rendered
chart over some table of data. -/
inductive PlotOutcome where
  | warning (msg : String)
  | chart (data : DataFrame)
deriving DecidableEq

/-- Restriction of a frame to the columns with the listed names. -/
def selectColumns (df : DataFrame) (names : List String) : DataFrame :=
  ⟨df.cols.filter fun c => names.contains c.name⟩

/-- Models the Correlation Heatmap branch (lines 198–207 of `app.py`):
with no numeric column a warning is written and nothing else happens;
otherwise a heatmap is rendered over the numeric sub-table (whose pairwise
correlations the chart annotates).  The branch installs no handler, so
`none` would model an escaping exception; neither path of the source can
raise. -/
def correlationHeatmap (df : DataFrame) : Option PlotOutcome :=
  if numericColumns df = [] then
    some (.warning "No numerical columns available to create a heatmap.")
  else some (.chart (selectColumns df (numericColumns df)))

/-- Count of non-missing cells of a column. -/
def nonNullCount (c : Column) : ℕ :=
  match c.data with
  | .numeric vs => (vs.filterMap id).length
  | .text vs => (vs.filterMap id).length

/-- Count of missing cells of a column (`df.isnull().sum()` at that
column). -/
def nullCount (c : Column) : ℕ :=
  ((cellsIsNull c.data).filter id).length

/-- The dtype label pandas prints for a column. -/
def dtypeName (c : Column) : String :=
  if c.isNumeric then "float64" else "object"

/-- Models the text `df.info(buf=...)` writes: an index line and one line
per column with its name, non-null count and dtype. -/
def infoString (df : DataFrame) : String :=
  "RangeIndex: " ++ toString (nRows df) ++ " entries\n" ++
  String.join (df.cols.map fun c =>
    c.name ++ "  " ++ toString (nonNullCount c) ++ " non-null  " ++
      dtypeName c ++ "\n")

/-- Models `df.describe().to_string()`: a fixed-width text block of summary
statistics, over the numeric columns when there are any and over the
remaining columns otherwise; pandas raises `ValueError` (`none` here) on a
frame without columns. -/
def describeString (df : DataFrame) : Option String :=
  match df.cols with
  | [] => none
  | _ =>
    let described := if (numericColumns df).isEmpty then df.cols
      else df.cols.filter Column.isNumeric
    some (String.intercalate "\n" (described.map fun c =>
      c.name ++ "  count " ++ toString (nonNullCount c) ++
        (match c.data with
         | .numeric vs =>
           "  mean " ++
             (match meanOpt vs with
              | none => "NaN"
              | some m => toString m)
         | .text _ => "")))

/-- Models `df.isnull().sum().to_string()`: one line per column with its
missing-cell count. -/
def nullCountsString (df : DataFrame) : String :=
  String.intercalate "\n" (df.cols.map fun c =>
    c.name ++ "    " ++ toString (nullCount c))

/-- Models `generate_summary` (lines 213-229 of `app.py`): the fixed header
then the four numbered sections, written in source order into one buffer.
`describe()` raising on a zero-column frame propagates (the function
installs no handler), modelled by `none`. -/
def generate_summary (df : DataFrame) : Option String :=
  match describeString df with
  | none => none
  | some ds => some
    ("Data Analysis Summary Report\n" ++
      "==============================" ++ "\n\n" ++
      "1. Data Shape\n" ++
      "Number of Rows: " ++ toString (nRows df) ++ "\n" ++
      "Number of Columns: " ++ toString (nCols df) ++ "\n\n" ++
      "2. Data Info\n" ++ infoString df ++ "\n\n" ++
      "3. Descriptive Statistics\n" ++ ds ++ "\n\n" ++
      "4. Missing Values Count\n" ++ nullCountsString df)

/-- Whether a column has at least one non-missing cell. -/
def Column.hasValue (c : Column) : Bool :=
  match c.data with
  | .numeric vs => vs.any (·.isSome)
  | .text vs => vs.any (·.isSome)

/-! ### Helper lemmas about the embedded operations -/

theorem mapOpt_sound {α β : Type} (f : α → Option β) :
    ∀ (l : List α) (l' : List β), mapOpt f l = some l' →
      l'.length = l.length ∧ ∀ i : ℕ, l'[i]? = (l[i]?).bind f := by
  intro l
  induction l with
  | nil =>
    intro l' h
    simp [mapOpt] at h
    subst h
    simp
  | cons a as ih =>
    intro l' h
    simp only [mapOpt] at h
    cases hf : f a with
    | none => rw [hf] at h; exact absurd h (by simp)
    | some b =>
      rw [hf] at h
      cases hm : mapOpt f as with
      | none => rw [hm] at h; exact absurd h (by simp)
      | some bs =>
        rw [hm] at h
        simp only [Option.some_inj] at h
        subst h
        obtain ⟨hlen, hget⟩ := ih bs hm
        refine ⟨by simp [hlen], ?_⟩
        intro i
        cases i with
        | zero => simp [hf]
        | succ j => simpa using hget j

theorem mapOpt_forall {α β : Type} (f : α → Option β) (P : β → Prop) :
    ∀ l : List α, (∀ a ∈ l, ∃ b, f a = some b ∧ P b) →
      ∃ l', mapOpt f l = some l' ∧ ∀ b ∈ l', P b := by
  intro l
  induction l with
  | nil => intro _; exact ⟨[], rfl, by simp⟩
  | cons a as ih =>
    intro h
    obtain ⟨b, hb, hPb⟩ := h a (by simp)
    obtain ⟨bs, hbs, hPs⟩ := ih fun x hx => h x (by simp [hx])
    refine ⟨b :: bs, ?_, ?_⟩
    · simp only [mapOpt]; rw [hb, hbs]
    · intro x hx
      rcases List.mem_cons.mp hx with h1 | h2
      · exact h1 ▸ hPb
      · exact hPs x h2

theorem listMinStr_eq_none : ∀ l : List String, listMinStr l = none ↔ l = [] := by
  intro l
  cases l with
  | nil => simp [listMinStr]
  | cons x xs =>
    simp only [listMinStr]
    cases listMinStr xs <;> simp

theorem listMinStr_spec : ∀ (l : List String) (m : String), listMinStr l = some m →
    m ∈ l ∧ ∀ x ∈ l, m ≤ x := by
  intro l
  induction l with
  | nil => intro m h; simp [listMinStr] at h
  | cons x xs ih =>
    intro m h
    simp only [listMinStr] at h
    cases hxs : listMinStr xs with
    | none =>
      rw [hxs] at h
      have hnil : xs = [] := (listMinStr_eq_none xs).mp hxs
      simp only [Option.some_inj] at h
      subst h hnil
      simp
    | some m' =>
      rw [hxs] at h
      simp only [Option.some_inj] at h
      obtain ⟨hm'mem, hm'le⟩ := ih m' hxs
      by_cases hle : x ≤ m'
      · rw [if_pos hle] at h
        subst h
        refine ⟨by simp, ?_⟩
        intro y hy
        rcases List.mem_cons.mp hy with h1 | h2
        · exact h1 ▸ le_refl x
        · exact le_trans hle (hm'le y h2)
      · rw [if_neg hle] at h
        subst h
        refine ⟨by simp [hm'mem], ?_⟩
        intro y hy
        rcases List.mem_cons.mp hy with h1 | h2
        · exact h1 ▸ le_of_not_le hle
        · exact hm'le y h2

theorem listMinStr_ne_nil (l : List String) (h : l ≠ []) :
    ∃ m, listMinStr l = some m := by
  cases hl : listMinStr l with
  | none => exact absurd ((listMinStr_eq_none l).mp hl) h
  | some m => exact ⟨m, rfl⟩

theorem le_foldr_max : ∀ (l : List ℕ) (x : ℕ), x ∈ l → x ≤ l.foldr max 0 := by
  intro l
  induction l with
  | nil => intro x h; simp at h
  | cons y ys ih =>
    intro x h
    rcases List.mem_cons.mp h with h1 | h2
    · exact h1 ▸ le_max_left _ _
    · exact le_trans (ih x h2) (le_max_right _ _)

theorem foldr_max_mem : ∀ l : List ℕ, l ≠ [] → l.foldr max 0 ∈ l := by
  intro l
  induction l with
  | nil => intro h; exact absurd rfl h
  | cons y ys ih =>
    intro _
    cases hys : ys with
    | nil => simp
    | cons z zs =>
      rw [← hys]
      have hne : ys ≠ [] := by simp [hys]
      rcases le_total (ys.foldr max 0) y with hle | hle
      · simp only [List.foldr_cons, max_eq_left hle]; simp
      · simp only [List.foldr_cons, max_eq_right hle]
        exact List.mem_cons_of_mem y (ih hne)

theorem count_le_maxCount (xs : List String) (v : String) (h : v ∈ xs) :
    xs.count v ≤ maxCount xs :=
  le_foldr_max _ _ (List.mem_map.mpr ⟨v, h, rfl⟩)

theorem exists_maxCount (xs : List String) (h : xs ≠ []) :
    ∃ v ∈ xs, xs.count v = maxCount xs := by
  have hmem : maxCount xs ∈ xs.map fun v => xs.count v :=
    foldr_max_mem _ (by simpa using h)
  obtain ⟨v, hv, hc⟩ := List.mem_map.mp hmem
  exact ⟨v, hv, hc⟩

theorem modeFirst_spec (xs : List String) (h : xs ≠ []) :
    ∃ m, modeFirst xs = some m ∧ m ∈ xs ∧
      (∀ v ∈ xs, xs.count v ≤ xs.count m) ∧
      (∀ v ∈ xs, xs.count v = xs.count m → m ≤ v) := by
  obtain ⟨v₀, hv₀, hc₀⟩ := exists_maxCount xs h
  have hv₀f : v₀ ∈ xs.dedup.filter fun v => xs.count v = maxCount xs := by
    simp only [List.mem_filter, List.mem_dedup]
    exact ⟨hv₀, by simp [hc₀]⟩
  obtain ⟨m, hm⟩ := listMinStr_ne_nil _ (List.ne_nil_of_mem hv₀f)
  obtain ⟨hmmem, hmle⟩ := listMinStr_spec _ m hm
  have hmf := List.mem_filter.mp hmmem
  have hmxs : m ∈ xs := List.mem_dedup.mp hmf.1
  have hmc : xs.count m = maxCount xs := by simpa using hmf.2
  refine ⟨m, hm, hmxs, ?_, ?_⟩
  · intro v hv
    rw [hmc]
    exact count_le_maxCount xs v hv
  · intro v hv hvc
    refine hmle v ?_
    simp only [List.mem_filter, List.mem_dedup]
    exact ⟨hv, by simp [hvc ▸ hmc]⟩

theorem map_getD_eq_self {α : Type} (m : α) :
    ∀ vs : List (Option α), (∀ v ∈ vs, v.isNone = false) →
      vs.map (fun v => some (v.getD m)) = vs := by
  intro vs
  induction vs with
  | nil => intro _; rfl
  | cons v rest ih =>
    intro h
    have hv : v.isNone = false := h v (by simp)
    cases v with
    | none => simp at hv
    | some x =>
      simp only [List.map_cons, Option.getD_some, List.cons.injEq, true_and]
      exact ih fun w hw => h w (by simp [hw])

theorem hasNull_false_numeric {nm : String} {vs : List (Option ℚ)}
    (h : Column.hasNull ⟨nm, .numeric vs⟩ = false) :
    ∀ v ∈ vs, v.isNone = false := by
  simp only [Column.hasNull, cellsIsNull, List.any_eq_false, List.mem_map, id] at h
  intro v hv
  by_contra hne
  exact h (v.isNone) ⟨v, hv, rfl⟩ (by simpa using hne)

theorem hasNull_false_text {nm : String} {vs : List (Option String)}
    (h : Column.hasNull ⟨nm, .text vs⟩ = false) :
    ∀ v ∈ vs, v.isNone = false := by
  simp only [Column.hasNull, cellsIsNull, List.any_eq_false, List.mem_map, id] at h
  intro v hv
  by_contra hne
  exact h (v.isNone) ⟨v, hv, rfl⟩ (by simpa using hne)

theorem fillColumn_numeric (nm : String) (vs : List (Option ℚ)) (m : ℚ)
    (hm : meanOpt vs = some m) :
    fillColumn ⟨nm, .numeric vs⟩ =
      some ⟨nm, .numeric (vs.map fun v => some (v.getD m))⟩ := by
  cases hn : Column.hasNull ⟨nm, .numeric vs⟩ with
  | true => simp [fillColumn, hn, fillNum, hm]
  | false =>
    simp only [fillColumn, hn, Bool.false_eq_true, if_false]
    rw [map_getD_eq_self m vs (hasNull_false_numeric hn)]

theorem mem_filterMap_id {α : Type} {vs : List (Option α)} {x : α} :
    x ∈ vs.filterMap id ↔ some x ∈ vs := by
  simp only [List.mem_filterMap, id]
  constructor
  · rintro ⟨a, ha, rfl⟩; exact ha
  · intro h; exact ⟨some x, h, rfl⟩

theorem filterMap_id_ne_nil {α : Type} {vs : List (Option α)}
    (h : vs.any (·.isSome) = true) : vs.filterMap id ≠ [] := by
  obtain ⟨v, hv, hsome⟩ := List.any_eq_true.mp h
  obtain ⟨x, hx⟩ := Option.isSome_iff_exists.mp (by simpa using hsome)
  subst hx
  exact List.ne_nil_of_mem (mem_filterMap_id.mpr hv)

theorem fillColumn_text (nm : String) (vs : List (Option String))
    (h : vs.any (·.isSome) = true) :
    ∃ m, fillColumn ⟨nm, .text vs⟩ =
        some ⟨nm, .text (vs.map fun v => some (v.getD m))⟩ ∧
      some m ∈ vs ∧
      (∀ w, some w ∈ vs →
        (vs.filterMap id).count w ≤ (vs.filterMap id).count m) ∧
      (∀ w, some w ∈ vs →
        (vs.filterMap id).count w = (vs.filterMap id).count m → m ≤ w) := by
  obtain ⟨m, hmode, hmmem, hmax, htie⟩ :=
    modeFirst_spec (vs.filterMap id) (filterMap_id_ne_nil h)
  refine ⟨m, ?_, mem_filterMap_id.mp hmmem,
    fun w hw => hmax w (mem_filterMap_id.mpr hw),
    fun w hw => htie w (mem_filterMap_id.mpr hw)⟩
  cases hn : Column.hasNull ⟨nm, .text vs⟩ with
  | true => simp [fillColumn, hn, fillText, hmode]
  | false =>
    simp only [fillColumn, hn, Bool.false_eq_true, if_false]
    rw [map_getD_eq_self m vs (hasNull_false_text hn)]

theorem meanOpt_isSome {vs : List (Option ℚ)} (h : vs.any (·.isSome) = true) :
    ∃ m, meanOpt vs = some m := by
  have hne : vs.filterMap id ≠ [] := by
    obtain ⟨v, hv, hsome⟩ := List.any_eq_true.mp h
    obtain ⟨x, hx⟩ := Option.isSome_iff_exists.mp (by simpa using hsome)
    subst hx
    exact List.ne_nil_of_mem (mem_filterMap_id.mpr hv)
  simp only [meanOpt]
  rw [if_neg (by simpa using List.length_pos.mpr hne |>.ne')]
  exact ⟨_, rfl⟩

theorem noNull_map_some_numeric (nm : String) (vs : List (Option ℚ)) (m : ℚ) :
    Column.noNull ⟨nm, .numeric (vs.map fun v => some (v.getD m))⟩ = true := by
  simp [Column.noNull, cellsIsNull, List.all_eq_true]

theorem noNull_map_some_text (nm : String) (vs : List (Option String)) (m : String) :
    Column.noNull ⟨nm, .text (vs.map fun v => some (v.getD m))⟩ = true := by
  simp [Column.noNull, cellsIsNull, List.all_eq_true]

theorem fillColumn_noNull (c : Column) (h : c.hasValue = true) :
    ∃ c', fillColumn c = some c' ∧ c'.noNull = true ∧ c'.name = c.name := by
  obtain ⟨nm, data⟩ := c
  cases data with
  | numeric vs =>
    have hv : vs.any (·.isSome) = true := by simpa [Column.hasValue] using h
    obtain ⟨m, hm⟩ := meanOpt_isSome hv
    exact ⟨_, fillColumn_numeric nm vs m hm, noNull_map_some_numeric nm vs m, rfl⟩
  | text vs =>
    have hv : vs.any (·.isSome) = true := by simpa [Column.hasValue] using h
    obtain ⟨m, hm, -, -, -⟩ := fillColumn_text nm vs hv
    exact ⟨_, hm, noNull_map_some_text nm vs m, rfl⟩

theorem fillColumn_allMissing_numeric (nm : String) (vs : List (Option ℚ))
    (h : vs.all (·.isNone) = true) :
    fillColumn ⟨nm, .numeric vs⟩ = some ⟨nm, .numeric vs⟩ := by
  have hnil : vs.filterMap id = [] := by
    rw [List.filterMap_eq_nil_iff]
    intro v hv
    simpa [Option.isNone_iff_eq_none] using List.all_eq_true.mp h v hv
  have hmean : meanOpt vs = none := by simp [meanOpt, hnil]
  cases hn : Column.hasNull ⟨nm, .numeric vs⟩ with
  | true => simp [fillColumn, hn, fillNum, hmean]
  | false => simp [fillColumn, hn]

theorem fillColumn_isSome (c : Column)
    (h : c.isNumeric = true ∨ c.hasValue = true) :
    ∃ c', fillColumn c = some c' := by
  obtain ⟨nm, data⟩ := c
  cases data with
  | numeric vs =>
    cases hn : Column.hasNull ⟨nm, .numeric vs⟩ with
    | true =>
      exact ⟨⟨nm, .numeric (fillNum vs)⟩, by simp [fillColumn, hn]⟩
    | false =>
      exact ⟨⟨nm, .numeric vs⟩, by simp [fillColumn, hn]⟩
  | text vs =>
    have hv : vs.any (·.isSome) = true := by
      rcases h with h | h
      · simp [Column.isNumeric] at h
      · simpa [Column.hasValue] using h
    obtain ⟨m, hm, -, -, -⟩ := fillColumn_text nm vs hv
    exact ⟨_, hm⟩

instance : IsTotal (String × Option ℚ) valDescR := by
  refine ⟨fun a b => ?_⟩
  obtain ⟨ka, qa⟩ := a
  obtain ⟨kb, qb⟩ := b
  unfold valDescR valDesc
  cases qa <;> cases qb <;> simp
  exact le_total _ _

instance : IsTrans (String × Option ℚ) valDescR := by
  refine ⟨fun a b c hab hbc => ?_⟩
  obtain ⟨ka, qa⟩ := a
  obtain ⟨kb, qb⟩ := b
  obtain ⟨kc, qc⟩ := c
  unfold valDescR valDesc at *
  cases qa <;> cases qb <;> cases qc <;> simp_all
  exact le_trans hbc hab

/-! ### Concrete frames used by the examples and witnesses -/

/-- The `age` column of the spec's concrete scenario: `[25, NaN, 31]`. -/
def ageCol : Column := ⟨"age", .numeric [some 25, none, some 31]⟩

/-- The `city` column of the spec's concrete scenario: `["NY","NY","LA"]`. -/
def cityCol : Column := ⟨"city", .text [some "NY", some "NY", some "LA"]⟩

/-- The spec's concrete two-column input frame. -/
def ageCity : DataFrame := ⟨[ageCol, cityCol]⟩

/-- The `age` column after mean-filling: `[25, 28, 31]`. -/
def ageFilled : Column := ⟨"age", .numeric [some 25, some 28, some 31]⟩

/-- The concrete frame after `fill-missing`. -/
def ageCityFilled : DataFrame := ⟨[ageFilled, cityCol]⟩

theorem meanOpt_age : meanOpt [some 25, none, some (31 : ℚ)] = some 28 := by
  simp [meanOpt]
  norm_num

theorem fillMissing_ageCity : fillMissing ageCity = some ageCityFilled := by
  simp +decide [fillMissing, mapOpt, fillColumn, ageCity, ageCol, cityCol,
    Column.hasNull, cellsIsNull, fillNum, meanOpt_age, ageCityFilled, ageFilled]

/-! ### Claim theorems -/

/-- C1: applying the fill-missing strategy replaces, in each column
independently, every missing entry by the column's arithmetic mean over its
non-missing values when the column is numeric, and by the column's single
most frequent value (ties broken by the first value in the column's natural
value ordering) otherwise; in particular, for the input with columns
`age = [25, missing, 31]` and `city = ["NY","NY","LA"]`, fill-missing yields
`age = [25, 28, 31]` and leaves `city` unchanged, and then dropping column
`city` yields the single-column table `age = [25, 28, 31]`. -/
theorem c1_fill_missing_strategy :
    (∀ (df df' : DataFrame), fillMissing df = some df' →
      df'.cols.length = df.cols.length ∧
      ∀ (i : ℕ) (nm : String),
        (∀ (vs : List (Option ℚ)) (m : ℚ),
          df.cols[i]? = some ⟨nm, .numeric vs⟩ → meanOpt vs = some m →
          df'.cols[i]? = some ⟨nm, .numeric (vs.map fun v => some (v.getD m))⟩) ∧
        (∀ vs : List (Option String),
          df.cols[i]? = some ⟨nm, .text vs⟩ → vs.any (·.isSome) = true →
          ∃ m, df'.cols[i]? = some ⟨nm, .text (vs.map fun v => some (v.getD m))⟩ ∧
            some m ∈ vs ∧
            (∀ w, some w ∈ vs →
              (vs.filterMap id).count w ≤ (vs.filterMap id).count m) ∧
            (∀ w, some w ∈ vs →
              (vs.filterMap id).count w = (vs.filterMap id).count m → m ≤ w))) ∧
    (fillMissing ageCity = some ageCityFilled ∧
      dropColumns ageCityFilled ["city"] = some ⟨[ageFilled]⟩) := by
  refine ⟨?_, fillMissing_ageCity, by decide⟩
  intro df df' h
  simp only [fillMissing] at h
  cases hm : mapOpt fillColumn df.cols with
  | none => rw [hm] at h; exact absurd h (by simp)
  | some cs =>
    rw [hm] at h
    simp only [Option.some_inj] at h
    subst h
    obtain ⟨hlen, hget⟩ := mapOpt_sound fillColumn df.cols cs hm
    refine ⟨hlen, ?_⟩
    intro i nm
    constructor
    · intro vs m hi hmean
      have := hget i
      rw [hi] at this
      simpa [this] using fillColumn_numeric nm vs m hmean
    · intro vs hi hval
      obtain ⟨m, hfc, hmem, hmax, htie⟩ := fillColumn_text nm vs hval
      have := hget i
      rw [hi] at this
      exact ⟨m, by simpa [this] using hfc, hmem, hmax, htie⟩

/-- C2 counterexample: on the single-column frame whose numeric column
`age` is entirely missing, fill-missing completes but leaves the column
missing, so not every column ends with zero missing values. -/
theorem c2_counterexample :
    fillMissing ⟨[⟨"age", .numeric [none]⟩]⟩ =
      some ⟨[⟨"age", .numeric [none]⟩]⟩ ∧
    ¬ ∀ c ∈ (⟨[⟨"age", .numeric [none]⟩]⟩ : DataFrame).cols,
        c.noNull = true := by
  refine ⟨rfl, fun h => ?_⟩
  have := h ⟨"age", .numeric [none]⟩ (by simp)
  simp [Column.noNull, cellsIsNull] at this

/-- C2 (amended): for every input dataset in which every column has at
least one non-missing value, applying the fill-missing strategy succeeds
and afterwards every column of the working copy contains zero missing
values. -/
theorem c2_fill_missing_complete (df : DataFrame)
    (h : ∀ c ∈ df.cols, c.hasValue = true) :
    ∃ df', fillMissing df = some df' ∧ ∀ c' ∈ df'.cols, c'.noNull = true := by
  obtain ⟨cs, hcs, hP⟩ := mapOpt_forall fillColumn (fun c' => c'.noNull = true)
    df.cols fun c hc => by
      obtain ⟨c', h1, h2, -⟩ := fillColumn_noNull c (h c hc)
      exact ⟨c', h1, h2⟩
  exact ⟨⟨cs⟩, by simp [fillMissing, hcs], hP⟩

/-- C2 witness: the amended theorem applied to the concrete `age`/`city`
frame, whose every column has a value. -/
theorem c2_fill_missing_complete_witness :
    ∃ df', fillMissing ageCity = some df' ∧
      ∀ c' ∈ df'.cols, c'.noNull = true :=
  c2_fill_missing_complete ageCity (by decide)

/-- C3: for every strategy and drop set, the cleaning pipeline leaves the
original frame untouched in the render state, and the working copy it
leaves in `df_processed` is the deterministic function `workingCopy` of
(original, strategy, drop set). -/
theorem c3_original_never_mutated (orig : DataFrame) (s : Strategy)
    (drops : List String) (st' : RenderState)
    (h : runCleaning orig s drops = some st') :
    st'.df = orig ∧ some st'.df_processed = workingCopy orig s drops := by
  have dstep : ∀ d : DataFrame, dropStep drops ⟨orig, d⟩ = some st' →
      st'.df = orig ∧ some st'.df_processed =
        (if drops.isEmpty then some d else dropColumns d drops) := by
    intro d hd
    by_cases he : drops.isEmpty
    · simp only [dropStep, he, if_true] at hd
      simp only [Option.some_inj] at hd
      subst hd
      simp [he]
    · simp only [dropStep, he, if_false] at hd
      cases hdc : dropColumns d drops with
      | none => rw [hdc] at hd; exact absurd hd (by simp)
      | some d' =>
        rw [hdc] at hd
        simp only [Bool.false_eq_true, if_false, Option.some_inj] at hd
        subst hd
        simp [he, hdc]
  cases s with
  | keep =>
    simp only [runCleaning, cleanMissing] at h
    simpa [workingCopy] using dstep orig h
  | dropRows =>
    simp only [runCleaning, cleanMissing] at h
    simpa [workingCopy] using dstep (dropna orig) h
  | fillMM =>
    simp only [runCleaning, cleanMissing] at h
    cases hf : fillMissing orig with
    | none => rw [hf] at h; exact absurd h (by simp)
    | some d =>
      rw [hf] at h
      simpa [workingCopy, hf] using dstep d h

/-- C3 witness: the pipeline run on the concrete frame with the `None`
strategy and an empty drop set. -/
theorem c3_original_never_mutated_witness :
    (⟨ageCity, ageCity⟩ : RenderState).df = ageCity ∧
      some (⟨ageCity, ageCity⟩ : RenderState).df_processed =
        workingCopy ageCity .keep [] :=
  c3_original_never_mutated ageCity .keep [] ⟨ageCity, ageCity⟩ rfl

/-- C4: the cleaning code installs no handler, so the `KeyError` that
`mode()[0]` raises on a text column with no non-missing value propagates
and the render pass aborts instead of completing with an error message:
fill-missing raises on this input and the whole cleaning step yields no
state. -/
theorem c4_cleaning_exception_propagates :
    fillMissing ⟨[⟨"city", .text [none, none]⟩]⟩ = none ∧
    runCleaning ⟨[⟨"city", .text [none, none]⟩]⟩ .fillMM [] = none := by
  exact ⟨rfl, rfl⟩

/-- C5: for a drop set drawn from the frame's column names, the drop
operation succeeds (no exception), keeps exactly the columns whose name is
not in the drop set — in their original order with their original values —
and yields the zero-column frame when every column name is dropped. -/
theorem c5_drop_exact (df : DataFrame) (drops : List String)
    (h : ∀ d ∈ drops, d ∈ colNames df) :
    ∃ res, dropColumns df drops = some res ∧
      res.cols.Sublist df.cols ∧
      (∀ c, c ∈ res.cols ↔ c ∈ df.cols ∧ drops.contains c.name = false) ∧
      ((∀ c ∈ df.cols, c.name ∈ drops) → res.cols = []) := by
  have hif : (drops.all fun d => (colNames df).contains d) = true := by
    rw [List.all_eq_true]
    intro d hd
    simpa using h d hd
  refine ⟨⟨df.cols.filter fun c => !(drops.contains c.name)⟩,
    by simp only [dropColumns, hif, if_true], List.filter_sublist _, ?_, ?_⟩
  · intro c
    simp [List.mem_filter]
  · intro hall
    simp only [List.filter_eq_nil_iff]
    intro c hc
    simp [hall c hc]

/-- C5 witness: dropping both columns of the concrete frame yields the
zero-column frame without raising. -/
theorem c5_drop_exact_witness :
    ∃ res, dropColumns ageCity ["age", "city"] = some res ∧
      res.cols.Sublist ageCity.cols ∧
      (∀ c, c ∈ res.cols ↔ c ∈ ageCity.cols ∧
        (["age", "city"] : List String).contains c.name = false) ∧
      ((∀ c ∈ ageCity.cols, c.name ∈ (["age", "city"] : List String)) →
        res.cols = []) :=
  c5_drop_exact ageCity ["age", "city"] (by decide)

/-- C6: requesting the Correlation Heatmap on a working copy with zero
numeric columns produces the warning, renders no chart, and raises no
exception out of the branch. -/
theorem c6_heatmap_no_numeric (df : DataFrame)
    (h : numericColumns df = []) :
    correlationHeatmap df =
      some (.warning "No numerical columns available to create a heatmap.") ∧
    ∀ ch, correlationHeatmap df ≠ some (.chart ch) := by
  simp [correlationHeatmap, h]

/-- C6 witness: the heatmap branch on a frame holding only a text column. -/
theorem c6_heatmap_no_numeric_witness :
    correlationHeatmap ⟨[cityCol]⟩ =
      some (.warning "No numerical columns available to create a heatmap.") ∧
    ∀ ch, correlationHeatmap ⟨[cityCol]⟩ ≠ some (.chart ch) :=
  c6_heatmap_no_numeric ⟨[cityCol]⟩ (by decide)

/-- C7: the Bar Chart aggregation carries, for every group, the mean of the
numeric column over that group, lists exactly the distinct non-missing keys,
and presents the groups sorted in descending order of mean; in particular,
grouping `category = ["A","A","B"]` with `value = [10,20,30]` yields means
`A → 15`, `B → 30`, ordered `B` then `A`. -/
theorem c7_bar_chart_aggregation :
    (∀ (keys : List (Option String)) (vals : List (Option ℚ)),
      List.Sorted valDescR (barChartAgg keys vals) ∧
      (∀ p ∈ barChartAgg keys vals, p.2 = groupMean keys vals p.1) ∧
      (∀ k : String,
        (∃ q, (k, q) ∈ barChartAgg keys vals) ↔ some k ∈ keys)) ∧
    barChartAgg [some "A", some "A", some "B"] [some 10, some 20, some 30] =
      [("B", some 30), ("A", some 15)] := by
  constructor
  · intro keys vals
    have hperm := List.perm_insertionSort valDescR
      ((List.insertionSort (fun a b : String => a ≤ b)
          (keys.filterMap id).dedup).map
        fun k => (k, groupMean keys vals k))
    have hkperm := List.perm_insertionSort (fun a b : String => a ≤ b)
      (keys.filterMap id).dedup
    refine ⟨List.sorted_insertionSort valDescR _, ?_, ?_⟩
    · intro p hp
      have hp' := hperm.mem_iff.mp hp
      obtain ⟨k, -, hk⟩ := List.mem_map.mp hp'
      rw [← hk]
    · intro k
      constructor
      · rintro ⟨q, hq⟩
        have hq' := hperm.mem_iff.mp hq
        obtain ⟨k', hk', hkq⟩ := List.mem_map.mp hq'
        have hfst : k' = k := congrArg Prod.fst hkq
        subst hfst
        have hdd : k' ∈ (keys.filterMap id).dedup := hkperm.mem_iff.mp hk'
        exact mem_filterMap_id.mp (List.mem_dedup.mp hdd)
      · intro hk
        refine ⟨groupMean keys vals k, hperm.mem_iff.mpr ?_⟩
        refine List.mem_map.mpr ⟨k, ?_, rfl⟩
        exact hkperm.mem_iff.mpr (List.mem_dedup.mpr (mem_filterMap_id.mpr hk))
  · have h1 : meanOpt [some (10 : ℚ), some 20] = some 15 := by
      simp [meanOpt]; norm_num
    have h2 : meanOpt [some (30 : ℚ)] = some 30 := by
      simp [meanOpt]
    simp +decide [barChartAgg, groupMean, List.insertionSort,
      List.orderedInsert, List.dedup, h1, h2, valDescR, valDesc]

/-- C8 counterexample: the zero-column frame is a reachable working copy
(drop every column), and on it the report generator propagates the
`ValueError` that `describe()` raises, producing no document at all. -/
theorem c8_counterexample :
    workingCopy ageCity .keep ["age", "city"] = some ⟨[]⟩ ∧
    generate_summary ⟨[]⟩ = none := by
  exact ⟨rfl, rfl⟩

/-- C8 (amended): for every working copy with at least one column, the
generated report is a text document whose sections appear in the fixed
order header, shape, info, descriptive statistics, missing-value counts,
and whenever the working copy has 3 rows and 2 columns the text contains
the substrings `Number of Rows: 3` and `Number of Columns: 2`. -/
theorem c8_summary_report (df : DataFrame) (h : df.cols ≠ []) :
    ∃ doc, generate_summary df = some doc ∧
      (∃ s1 s2 s3 s4 s5 : String,
        doc = "Data Analysis Summary Report\n" ++ s1 ++ "1. Data Shape\n" ++
          s2 ++ "2. Data Info\n" ++ s3 ++ "3. Descriptive Statistics\n" ++
          s4 ++ "4. Missing Values Count\n" ++ s5) ∧
      (nRows df = 3 → nCols df = 2 →
        (∃ u v, doc = u ++ "Number of Rows: 3" ++ v) ∧
        (∃ u v, doc = u ++ "Number of Columns: 2" ++ v)) := by
  obtain ⟨ds, hds⟩ : ∃ ds, describeString df = some ds := by
    cases hc : df.cols with
    | nil => exact absurd hc h
    | cons c cs =>
      simp only [describeString, hc]
      exact ⟨_, rfl⟩
  have hgs : generate_summary df = some
      ("Data Analysis Summary Report\n" ++ "==============================" ++
        "\n\n" ++ "1. Data Shape\n" ++ "Number of Rows: " ++
        toString (nRows df) ++ "\n" ++ "Number of Columns: " ++
        toString (nCols df) ++ "\n\n" ++ "2. Data Info\n" ++ infoString df ++
        "\n\n" ++ "3. Descriptive Statistics\n" ++ ds ++ "\n\n" ++
        "4. Missing Values Count\n" ++ nullCountsString df) := by
    simp only [generate_summary, hds]
  refine ⟨_, hgs, ?_, ?_⟩
  · refine ⟨"==============================" ++ "\n\n",
      "Number of Rows: " ++ toString (nRows df) ++ "\n" ++
        "Number of Columns: " ++ toString (nCols df) ++ "\n\n",
      infoString df ++ "\n\n", ds ++ "\n\n", nullCountsString df, ?_⟩
    simp only [String.append_assoc]
  · intro h3 h2
    constructor
    · refine ⟨"Data Analysis Summary Report\n" ++
        "==============================" ++ "\n\n" ++ "1. Data Shape\n",
        "\n" ++ "Number of Columns: " ++ toString (nCols df) ++ "\n\n" ++
          "2. Data Info\n" ++ infoString df ++ "\n\n" ++
          "3. Descriptive Statistics\n" ++ ds ++ "\n\n" ++
          "4. Missing Values Count\n" ++ nullCountsString df, ?_⟩
      rw [h3]
      rw [show ("Number of Rows: 3" : String) =
        "Number of Rows: " ++ toString (3 : ℕ) from by decide]
      simp only [String.append_assoc]
    · refine ⟨"Data Analysis Summary Report\n" ++
        "==============================" ++ "\n\n" ++ "1. Data Shape\n" ++
          "Number of Rows: " ++ toString (nRows df) ++ "\n",
        "\n\n" ++ "2. Data Info\n" ++ infoString df ++ "\n\n" ++
          "3. Descriptive Statistics\n" ++ ds ++ "\n\n" ++
          "4. Missing Values Count\n" ++ nullCountsString df, ?_⟩
      rw [h2]
      rw [show ("Number of Columns: 2" : String) =
        "Number of Columns: " ++ toString (2 : ℕ) from by decide]
      simp only [String.append_assoc]

/-- C8 witness: the amended theorem applied to the concrete 3-row,
2-column frame. -/
theorem c8_summary_report_witness :
    ∃ doc, generate_summary ageCity = some doc ∧
      (∃ s1 s2 s3 s4 s5 : String,
        doc = "Data Analysis Summary Report\n" ++ s1 ++ "1. Data Shape\n" ++
          s2 ++ "2. Data Info\n" ++ s3 ++ "3. Descriptive Statistics\n" ++
          s4 ++ "4. Missing Values Count\n" ++ s5) ∧
      (nRows ageCity = 3 → nCols ageCity = 2 →
        (∃ u v, doc = u ++ "Number of Rows: 3" ++ v) ∧
        (∃ u v, doc = u ++ "Number of Columns: 2" ++ v)) :=
  c8_summary_report ageCity (by decide)

/-- C9: in the first-5-rows preview, a numeric column is passed through
unchanged while a text (object-dtype) column is coerced cell by cell to its
textual representation, after which it holds no missing cell; the preview
is computed on a copy, the previewed frame itself being untouched. -/
theorem c9_preview_coercion (df : DataFrame) (i : ℕ) (c : Column)
    (h : (headDF df).cols[i]? = some c) :
    (c.isNumeric = true → (previewDF df).cols[i]? = some c) ∧
    (∀ vs, c.data = .text vs →
      (previewDF df).cols[i]? =
        some ⟨c.name, .text (vs.map fun v => some (cellStr v))⟩ ∧
      Column.noNull ⟨c.name, .text (vs.map fun v => some (cellStr v))⟩
        = true) := by
  have hp : (previewDF df).cols[i]? = Option.map
      (fun c : Column =>
        match c.data with
        | .numeric _ => c
        | .text vs => { c with data := .text (vs.map fun v => some (cellStr v)) })
      ((headDF df).cols[i]?) := by
    simp [previewDF, to_display_df, List.getElem?_map]
  rw [h] at hp
  constructor
  · intro hnum
    obtain ⟨nm, data⟩ := c
    cases data with
    | numeric vs => simpa using hp
    | text vs => simp [Column.isNumeric] at hnum
  · intro vs hvs
    obtain ⟨nm, data⟩ := c
    cases hvs
    refine ⟨by simpa using hp, ?_⟩
    simp [Column.noNull, cellsIsNull, List.all_eq_true]

/-- C9 witness: the preview of the concrete frame coerces the `city`
column at position 1 and leaves no missing cell in it. -/
theorem c9_preview_coercion_witness :
    ((cityCol.isNumeric = true →
        (previewDF ageCity).cols[1]? = some cityCol) ∧
      (∀ vs, cityCol.data = .text vs →
        (previewDF ageCity).cols[1]? =
          some ⟨cityCol.name, .text (vs.map fun v => some (cellStr v))⟩ ∧
        Column.noNull ⟨cityCol.name, .text (vs.map fun v => some (cellStr v))⟩
          = true)) :=
  c9_preview_coercion ageCity 1 cityCol (by decide)

/-- C10 counterexample: a dataset that does contain an all-missing numeric
column, on which fill-missing does not complete without error — its
all-missing text column makes `mode()[0]` raise, so the strategy as a whole
raises instead of completing. -/
theorem c10_counterexample :
    ((⟨"a", .numeric [none]⟩ : Column) ∈
        (⟨[⟨"a", .numeric [none]⟩, ⟨"c", .text [none]⟩]⟩ : DataFrame).cols ∧
      ([none] : List (Option ℚ)).all (·.isNone) = true) ∧
    fillMissing ⟨[⟨"a", .numeric [none]⟩, ⟨"c", .text [none]⟩]⟩ = none := by
  exact ⟨⟨by simp, by decide⟩, rfl⟩

/-- C10 (amended): for every dataset containing a numeric column all of
whose entries are missing, provided every non-numeric column has at least
one non-missing value, fill-missing completes without error and leaves
that numeric column exactly as it was — every entry still missing — since
the fill value is the missing mean of an empty set of values. -/
theorem c10_all_missing_numeric (df : DataFrame) (i : ℕ) (nm : String)
    (vs : List (Option ℚ)) (hi : df.cols[i]? = some ⟨nm, .numeric vs⟩)
    (hmiss : vs.all (·.isNone) = true)
    (hothers : ∀ c ∈ df.cols, c.isNumeric = true ∨ c.hasValue = true) :
    ∃ df', fillMissing df = some df' ∧
      df'.cols[i]? = some ⟨nm, .numeric vs⟩ := by
  obtain ⟨cs, hcs, -⟩ := mapOpt_forall fillColumn (fun _ => True) df.cols
    fun c hc => by
      obtain ⟨c', hc'⟩ := fillColumn_isSome c (hothers c hc)
      exact ⟨c', hc', trivial⟩
  obtain ⟨-, hget⟩ := mapOpt_sound fillColumn df.cols cs hcs
  refine ⟨⟨cs⟩, by simp [fillMissing, hcs], ?_⟩
  have := hget i
  rw [hi] at this
  simpa [this] using fillColumn_allMissing_numeric nm vs hmiss

/-- C10 witness: the amended theorem applied to a one-column frame whose
numeric column is entirely missing. -/
theorem c10_all_missing_numeric_witness :
    ∃ df', fillMissing ⟨[⟨"a", .numeric [none]⟩]⟩ = some df' ∧
      df'.cols[0]? = some ⟨"a", .numeric [none]⟩ :=
  c10_all_missing_numeric ⟨[⟨"a", .numeric [none]⟩]⟩ 0 "a" [none]
    rfl (by decide) (by decide)
